import Mathlib

/-!
Verification development for the OpenList-Mobile front-end.

Shallow embedding of the client logic: JavaScript strings are modelled as
`List Char` (`Str`), JS numbers appearing in the gesture layer as real
numbers, and the stateful React components as explicit state-passing
functions. Each definition is translated from the corresponding source
function; doc comments name the source location.
-/

/-- Strings of the embedded JavaScript are modelled as lists of characters. -/
abbrev Str := List Char

/-- Model of JS `s.startsWith(pre)`: `startsWithL s pre` is true iff `pre` is a
prefix of `s`. -/
def startsWithL : Str → Str → Bool
  | _, [] => true
  | [], _ :: _ => false
  | c :: cs, d :: ds => c == d && startsWithL cs ds

/-- Model of JS `s.includes(sub)`: `containsL sub s` is true iff `sub` occurs
contiguously inside `s`. -/
def containsL (sub : Str) : Str → Bool
  | [] => startsWithL [] sub
  | c :: cs => startsWithL (c :: cs) sub || containsL sub cs

/-- Model of JS `toLowerCase` (character-wise lowering). -/
def lowerL (s : Str) : Str := s.map Char.toLower

/-- Model of JS `trim`: drop whitespace from both ends. -/
def trimL (s : Str) : Str :=
  ((s.dropWhile Char.isWhitespace).reverse.dropWhile Char.isWhitespace).reverse

/-- Model of JS `s.replace('.', '')`: remove the first occurrence of a dot. -/
def removeFirstDot : Str → Str
  | [] => []
  | c :: cs => if c == '.' then cs else c :: removeFirstDot cs

/-- Model of JS `s.lastIndexOf(c)`: the index of the last occurrence of `c`,
or `none` when `c` does not occur (JS returns `-1`). -/
def jsLastIndexOf (c : Char) : Str → Option Nat
  | [] => none
  | x :: xs =>
    match jsLastIndexOf c xs with
    | some i => some (i + 1)
    | none => if x == c then some 0 else none

/-- Model of JS `s.split(sep)` for a single-character separator. -/
def splitOnChar (sep : Char) : Str → List Str
  | [] => [[]]
  | c :: cs =>
    if c == sep then [] :: splitOnChar sep cs
    else
      match splitOnChar sep cs with
      | [] => [[c]]
      | p :: ps => (c :: p) :: ps

/-! ## Data model (`src/types.ts`) -/

/-- ServerConfig from `src/types.ts`: one remote server connection. -/
structure ServerConfig where
  url : Str
  username : Str
  token : Str
  serverName : Str
deriving DecidableEq

/-- AListFile from `src/types.ts` as consumed by the UI after the service has
normalized `thumb`; `size` and `type` are JS numbers, modelled as integers. -/
structure AListFile where
  name : Str
  size : Int
  is_dir : Bool
  modified : Str
  sign : Str
  thumb : Str
deriving DecidableEq

/-- A raw `fs/list` entry as returned by the server, before the client
normalizes its `thumb` field (which the server may omit, hence `Option`). -/
structure RawFile where
  name : Str
  size : Int
  is_dir : Bool
  modified : Str
  sign : Str
  thumb : Option Str
deriving DecidableEq

/-- The `data` object of a raw `fs/get` response: `raw_url` and `thumb` may be
absent before normalization. -/
structure RawDetail where
  raw_url : Option Str
  thumb : Option Str
deriving DecidableEq

/-- The `data` object of an `fs/get` response after the client normalized the
`raw_url` and `thumb` fields. -/
structure DetailData where
  raw_url : Str
  thumb : Str
deriving DecidableEq

/-! ## Storage client (`AListService`, `src/README.md` service listing) -/

/-- Constructor logic of `AListService` and of `AListService.login`: strip one
trailing slash (`url.endsWith('/') ? url.slice(0, -1) : url`). -/
def cleanUrl (url : Str) : Str :=
  if url.getLast? == some '/' then url.dropLast else url

/-- Protocol detection of the `AListService` constructor: the held base URL
starts with `https://`. -/
def serviceIsHttps (cfgUrl : Str) : Bool :=
  startsWithL (cleanUrl cfgUrl) ("https://".toList)

/-- AListService.fixProtocol: `undefined`/empty URLs map to the empty string;
with an https base an `http://` URL is promoted (JS `replace` rewrites the
first occurrence, which the `startsWith` guard pins to the prefix); a
server-relative URL starting with `/` is resolved against the base URL;
anything else is returned unchanged. -/
def fixProtocol (cfgUrl : Str) (url : Option Str) : Str :=
  match url with
  | none => []
  | some u =>
    if u.isEmpty then []
    else if serviceIsHttps cfgUrl && startsWithL u ("http://".toList) then
      "https://".toList ++ u.drop 7
    else if startsWithL u ("/".toList) then cleanUrl cfgUrl ++ u
    else u

/-- Per-entry post-processing performed by `AListService.listFiles`:
`{...file, thumb: this.fixProtocol(file.thumb)}`. -/
def normalizeFile (cfgUrl : Str) (f : RawFile) : AListFile :=
  { name := f.name, size := f.size, is_dir := f.is_dir, modified := f.modified,
    sign := f.sign, thumb := fixProtocol cfgUrl f.thumb }

/-- Post-processing performed by `AListService.listFiles` on `res.data.content`. -/
def listFilesContent (cfgUrl : Str) (content : List RawFile) : List AListFile :=
  content.map (normalizeFile cfgUrl)

/-- Post-processing performed by `AListService.getFileDetail` on `res.data`:
both `raw_url` and `thumb` run through `fixProtocol`. -/
def normalizeDetail (cfgUrl : Str) (d : RawDetail) : DetailData :=
  { raw_url := fixProtocol cfgUrl d.raw_url, thumb := fixProtocol cfgUrl d.thumb }

/-- AListService.login outcome, as a function of the HTTP-level success flag
(`response.ok`) and the decoded body: a non-OK response throws
`Connection failed`, an application code other than 200 throws the server
message (or a default when the message is empty), and otherwise the token is
returned. -/
def login (httpOk : Bool) (code : Int) (message : Str) (token : Str) :
    Except Str Str :=
  if !httpOk then Except.error ("Connection failed".toList)
  else if code ≠ 200 then
    Except.error (if message.isEmpty then "Authentication failed".toList else message)
  else Except.ok token

/-- AListService.deleteFile (`src/unnamed/part_002`): split the absolute path
at its last slash into the `dir` and single-element `names` of the
`/api/fs/remove` body; an empty prefix (or a path with no slash) yields the
root dir `/`. -/
def deleteFileBody (path : Str) : Str × List Str :=
  match jsLastIndexOf '/' path with
  | none => ("/".toList, [path])
  | some i =>
    let dir := path.take i
    let nm := path.drop (i + 1)
    ((if dir.isEmpty then "/".toList else dir), [nm])

/-! ## Session/config store (`Login.tsx` handleSubmit history update) -/

/-- Predicate used by `savedConfigs.findIndex(c => c.url === targetUrl &&
c.username === username)` in `Login.tsx`. -/
def historyMatches (nc : ServerConfig) (c : ServerConfig) : Bool :=
  c.url == nc.url && c.username == nc.username

/-- History update of `Login.tsx` `handleSubmit`: replace in place when a
`(url, username)` match exists, otherwise `unshift`; then `slice(0, 5)`. -/
def updateLoginHistory (savedConfigs : List ServerConfig) (nc : ServerConfig) :
    List ServerConfig :=
  match savedConfigs.findIdx? (historyMatches nc) with
  | some i => (savedConfigs.set i nc).take 5
  | none => (nc :: savedConfigs).take 5

/-! ## File listing state (`src/components/FileBrowser.tsx`) -/

/-- Type-filter categories of `FileBrowser.tsx` (`FilterType`). -/
inductive FilterType
  | all | video | image | doc | others | custom
deriving DecidableEq

/-- Sort keys of `FileBrowser.tsx` (`SortKey`). -/
inductive SortKey
  | name | modified | size
deriving DecidableEq

/-- Sort directions of `FileBrowser.tsx` (`SortOrder`). -/
inductive SortOrder
  | asc | desc
deriving DecidableEq

/-- Video extension whitelist of `sortedAndFilteredFiles`. -/
def videoExts : List Str :=
  ["mp4".toList, "mkv".toList, "avi".toList, "mov".toList, "flv".toList,
   "wmv".toList, "rmvb".toList]

/-- Image extension whitelist of `sortedAndFilteredFiles`. -/
def imageExts : List Str :=
  ["jpg".toList, "jpeg".toList, "png".toList, "gif".toList, "webp".toList,
   "svg".toList]

/-- Document extension whitelist of `sortedAndFilteredFiles`. -/
def docExts : List Str :=
  ["pdf".toList, "doc".toList, "docx".toList, "xls".toList, "xlsx".toList,
   "ppt".toList, "pptx".toList, "txt".toList, "md".toList, "json".toList,
   "yaml".toList, "yml".toList, "js".toList, "ts".toList, "py".toList,
   "css".toList, "html".toList, "conf".toList, "ini".toList, "log".toList,
   "tsx".toList, "jsx".toList, "sh".toList, "sql".toList, "xml".toList,
   "csv".toList, "go".toList, "c".toList, "cpp".toList, "java".toList]

/-- Search predicate of `sortedAndFilteredFiles`:
`f.name.toLowerCase().includes(searchQuery.toLowerCase())`. -/
def matchesSearch (name searchQuery : Str) : Bool :=
  containsL (lowerL searchQuery) (lowerL name)

/-- Extension extraction of `sortedAndFilteredFiles`:
`f.name.split('.').pop()?.toLowerCase() || ''`. `split('.').pop()` is the
suffix after the last dot, or the whole name when it contains no dot. -/
def extOf (name : Str) : Str :=
  lowerL (match jsLastIndexOf '.' name with
          | none => name
          | some i => name.drop (i + 1))

/-- Normalization applied to the custom extension before comparison:
`customExt.toLowerCase().trim().replace('.', '')`. -/
def normCustomExt (customExt : Str) : Str :=
  removeFirstDot (trimL (lowerL customExt))

/-- Switch over `filterType` in the filter of `sortedAndFilteredFiles`,
applied to a non-directory entry's extension; an empty `customExt` (JS falsy)
lets everything pass. -/
def typeFilterPass (filterType : FilterType) (customExt : Str) (ext : Str) : Bool :=
  match filterType with
  | .video => videoExts.contains ext
  | .image => imageExts.contains ext
  | .doc => docExts.contains ext
  | .others =>
      !videoExts.contains ext && !imageExts.contains ext && !docExts.contains ext
  | .custom => if customExt.isEmpty then true else ext == normCustomExt customExt
  | .all => true

/-- Filter callback of `sortedAndFilteredFiles`: non-matching names are
dropped, directories then always pass, files pass per the type filter. -/
def filterPred (searchQuery : Str) (filterType : FilterType) (customExt : Str)
    (f : AListFile) : Bool :=
  if !matchesSearch f.name searchQuery then false
  else if f.is_dir then true
  else typeFilterPass filterType customExt (extOf f.name)

/-- Comparator of `sortedAndFilteredFiles`. `ncmp` stands for the host's
`localeCompare(..., {numeric: true, sensitivity: 'base'})` and `parseTime`
for `new Date(...).getTime()`, both external host functions taken as
parameters. `(a.size || 0)` is `a.size` on integer sizes. -/
def jsComparator (ncmp : Str → Str → Int) (parseTime : Str → Int)
    (sortKey : SortKey) (sortOrder : SortOrder) (foldersFirst : Bool)
    (a b : AListFile) : Int :=
  if foldersFirst && a.is_dir && !b.is_dir then -1
  else if foldersFirst && !a.is_dir && b.is_dir then 1
  else
    let comparison : Int :=
      match sortKey with
      | .name => ncmp a.name b.name
      | .size => a.size - b.size
      | .modified => parseTime a.modified - parseTime b.modified
    if sortOrder == SortOrder.asc then comparison else -comparison

/-- Insertion step of the comparison sort modelling `Array.prototype.sort`:
place `x` before the first element `y` with `le x y`. -/
def insertSorted (le : AListFile → AListFile → Bool) (x : AListFile) :
    List AListFile → List AListFile
  | [] => [x]
  | y :: ys => if le x y then x :: y :: ys else y :: insertSorted le x ys

/-- Comparison sort modelling `result.sort(comparator)`: a comparator-driven
sort placing `a` before `b` whenever the comparator is non-positive. -/
def sortByLe (le : AListFile → AListFile → Bool) : List AListFile → List AListFile
  | [] => []
  | x :: xs => insertSorted le x (sortByLe le xs)

/-- The derived view `sortedAndFilteredFiles` of `FileBrowser.tsx`: filter the
raw entries by search and type, then sort them with the comparator. -/
def sortedAndFilteredFiles (ncmp : Str → Str → Int) (parseTime : Str → Int)
    (files : List AListFile) (searchQuery : Str) (filterType : FilterType)
    (customExt : Str) (sortKey : SortKey) (sortOrder : SortOrder)
    (foldersFirst : Bool) : List AListFile :=
  sortByLe
    (fun a b =>
      decide (jsComparator ncmp parseTime sortKey sortOrder foldersFirst a b ≤ 0))
    (files.filter (filterPred searchQuery filterType customExt))

/-! ## Multi-selection and batch actions (`FileBrowser.tsx`) -/

/-- Derived flag `hasFolderSelected`: some selected name whose first matching
entry in `files` is a directory (`file?.is_dir` is falsy for a missing file). -/
def hasFolderSelected (files : List AListFile) (selected : List Str) : Bool :=
  selected.any fun nm =>
    match files.find? (fun f => f.name == nm) with
    | some f => f.is_dir
    | none => false

/-- Path concatenation used by the batch handlers:
`(path === '/' ? '' : path) + '/' + name`. -/
def fullItemPath (path nm : Str) : Str :=
  (if path == "/".toList then [] else path) ++ '/' :: nm

/-- The `getFileDetail` request paths issued by `handleBatchDownload`: the
guard `if (hasFolderSelected || selectedItemNames.size === 0) return` fires
before any per-item request. -/
def batchDownloadRequests (files : List AListFile) (selected : List Str)
    (path : Str) : List Str :=
  if hasFolderSelected files selected || selected.isEmpty then []
  else selected.map (fullItemPath path)

/-- The `getFileDetail` request paths issued by `handleBatchCopyLinks`, guarded
identically to `handleBatchDownload`. -/
def batchCopyLinkRequests (files : List AListFile) (selected : List Str)
    (path : Str) : List Str :=
  if hasFolderSelected files selected || selected.isEmpty then []
  else selected.map (fullItemPath path)

/-- The `disabled` condition of the batch download button:
`batchActionLoading || hasFolderSelected || selectedItemNames.size === 0`. -/
def batchDownloadDisabled (batchActionLoading : Bool) (files : List AListFile)
    (selected : List Str) : Bool :=
  batchActionLoading || hasFolderSelected files selected || selected.isEmpty

/-- The `disabled` condition of the copy-links button, identical to the
download button's. -/
def batchCopyDisabled (batchActionLoading : Bool) (files : List AListFile)
    (selected : List Str) : Bool :=
  batchActionLoading || hasFolderSelected files selected || selected.isEmpty

/-- The `disabled` condition of the batch delete button:
`batchActionLoading || selectedItemNames.size === 0`; it does not consult
`hasFolderSelected`. -/
def batchDeleteDisabled (batchActionLoading : Bool) (selected : List Str) : Bool :=
  batchActionLoading || selected.isEmpty

/-! ## Navigation state (`FileBrowser.tsx`) -/

/-- UI state of `FileBrowser` relevant to navigation: current path, transient
search/filter state, selection state and the persisted sort preferences. -/
structure BrowserState where
  path : Str
  searchQuery : Str
  filterType : FilterType
  customExt : Str
  isSelectionMode : Bool
  selectedItemNames : List Str
  sortKey : SortKey
  sortOrder : SortOrder
  foldersFirst : Bool
deriving DecidableEq

/-- Parent path computed by `goBack`:
`path.split('/').filter(Boolean)` with the last segment popped, re-joined and
prefixed with `/`. -/
def parentPath (p : Str) : Str :=
  '/' :: List.intercalate ("/".toList)
    (((splitOnChar '/' p).filter (fun s => !s.isEmpty)).dropLast)

/-- React effect on `[path]`: when the path value actually changed between
renders, `setIsSelectionMode(false)` and `setSelectedItemNames(new Set())`
run (React bails out on a state update to the same value, so navigating to
the identical path does not rerun the effect). -/
def clearSelectionOnPathChange (oldPath : Str) (s : BrowserState) : BrowserState :=
  if s.path == oldPath then s
  else { s with isSelectionMode := false, selectedItemNames := [] }

/-- handleNavigate of `FileBrowser.tsx`: set the path, clear the search text
and reset the filter; the path-change effect then clears the selection. -/
def handleNavigate (s : BrowserState) (newPath : Str) : BrowserState :=
  clearSelectionOnPathChange s.path
    { s with path := newPath, searchQuery := [], filterType := FilterType.all }

/-- goBack of `FileBrowser.tsx`: a no-op at the root, otherwise pop one path
segment and reset the filter (the search text is left untouched); the
path-change effect then clears the selection. -/
def goBack (s : BrowserState) : BrowserState :=
  if s.path == "/".toList then s
  else clearSelectionOnPathChange s.path
    { s with path := parentPath s.path, filterType := FilterType.all }

/-! ## Pull-to-refresh gesture (`src/unnamed/part_002` FileBrowser variant) -/

/-- Constant `PULL_LIMIT` (the hard wall). -/
def PULL_LIMIT : ℝ := 110

/-- Constant `PULL_TRIGGER_ZONE` (where the refresh is armed). -/
def PULL_TRIGGER_ZONE : ℝ := 100

/-- Constant `DAMPING_COEFFICIENT`. -/
def DAMPING_COEFFICIENT : ℝ := 0.65

/-- Damping curve of `handleTouchMove`:
`Math.pow(deltaY, 0.8) * DAMPING_COEFFICIENT * 2` (floating-point power
modelled over the reals). -/
noncomputable def rawPullDistance (deltaY : ℝ) : ℝ :=
  deltaY ^ (0.8 : ℝ) * DAMPING_COEFFICIENT * 2

/-- Pull distance after `handleTouchMove`: untouched unless a pull is armed
(started at scroll top) and neither a refresh nor selection mode is active;
a mostly-vertical downward move sets the damped distance capped at
`PULL_LIMIT`, and any other move resets it to 0. `deltaX` is the raw
horizontal displacement (the handler takes its absolute value). -/
noncomputable def handleTouchMove (isPulling isRefreshing isSelectionMode : Bool)
    (pullDistance deltaY deltaX : ℝ) : ℝ :=
  if !isPulling || isRefreshing || isSelectionMode then pullDistance
  else if 0 < deltaY ∧ |deltaX| < deltaY then
    min (rawPullDistance deltaY) PULL_LIMIT
  else 0

/-- Possible effects of `handleTouchEnd`: an edge-swipe back navigation, a
committed forced refresh (`fetchFiles(path, true)`, i.e. `listFiles` with
`refresh=true`), or nothing. -/
inductive TouchEndOutcome
  | edgeSwipeBack | forcedRefresh | idle
deriving DecidableEq

/-- Result of `handleTouchEnd`: the triggered effect and the pull distance it
leaves behind (50 is the holding position while refreshing). The edge-swipe
branch is checked first; the refresh branch fires only when the pull distance
reached `PULL_TRIGGER_ZONE`. -/
noncomputable def handleTouchEnd (isSelectionMode : Bool)
    (startX deltaX deltaY duration : ℝ) (pullDistance : ℝ)
    (isRefreshing : Bool) : TouchEndOutcome × ℝ :=
  if isSelectionMode = false ∧ startX < 40 ∧ 100 < deltaX ∧
      |deltaY| * 2 < |deltaX| ∧ duration < 500 then
    (TouchEndOutcome.edgeSwipeBack, 0)
  else if PULL_TRIGGER_ZONE ≤ pullDistance ∧ isRefreshing = false then
    (TouchEndOutcome.forcedRefresh, 50)
  else (TouchEndOutcome.idle, 0)

/-! ## Helper lemmas -/

/-- Membership through the insertion step of the comparison sort. -/
theorem mem_insertSorted (le : AListFile → AListFile → Bool) (x w : AListFile) :
    ∀ l : List AListFile, w ∈ insertSorted le x l ↔ w = x ∨ w ∈ l := by
  intro l
  induction l with
  | nil => simp [insertSorted]
  | cons y ys ih =>
    by_cases h : le x y = true
    · simp [insertSorted, h]
    · simp only [insertSorted, Bool.not_eq_true] at h ⊢
      rw [if_neg (by simp [h])]
      simp only [List.mem_cons, ih]
      tauto

/-- Membership through the comparison sort. -/
theorem mem_sortByLe (le : AListFile → AListFile → Bool) (w : AListFile) :
    ∀ l : List AListFile, w ∈ sortByLe le l ↔ w ∈ l := by
  intro l
  induction l with
  | nil => simp [sortByLe]
  | cons y ys ih => simp [sortByLe, mem_insertSorted, ih]

/-- Ordering relation stating that a directory never comes after a file: for a
pair `(a, b)` with `a` placed before `b`, if `b` is a directory then so is `a`. -/
def dirsBeforeFiles (a b : AListFile) : Prop :=
  b.is_dir = true → a.is_dir = true

/-- Inserting an element with a comparator that always puts directories before
files preserves the directories-first shape of the list. -/
theorem pairwise_insertSorted (le : AListFile → AListFile → Bool)
    (hA : ∀ a b, a.is_dir = true → b.is_dir = false → le a b = true)
    (hB : ∀ a b, a.is_dir = false → b.is_dir = true → le a b = false)
    (x : AListFile) :
    ∀ l : List AListFile, l.Pairwise dirsBeforeFiles →
      (insertSorted le x l).Pairwise dirsBeforeFiles := by
  intro l
  induction l with
  | nil =>
    intro _
    simp [insertSorted]
  | cons y ys ih =>
    intro h
    rw [List.pairwise_cons] at h
    obtain ⟨hy, hys⟩ := h
    by_cases hle : le x y = true
    · simp only [insertSorted, if_pos hle]
      rw [List.pairwise_cons]
      refine ⟨?_, List.pairwise_cons.mpr ⟨hy, hys⟩⟩
      intro w hw
      rcases List.mem_cons.mp hw with hwy | hwys
      · subst hwy
        intro hwdir
        cases hx : x.is_dir with
        | true => rfl
        | false => exact absurd hle (by simp [hB x w hx hwdir])
      · intro hwdir
        have hydir : y.is_dir = true := hy w hwys hwdir
        cases hx : x.is_dir with
        | true => rfl
        | false => exact absurd hle (by simp [hB x y hx hydir])
    · have hle2 : le x y = false := by
        cases h2 : le x y with
        | true => exact absurd h2 hle
        | false => rfl
      simp only [insertSorted]
      rw [if_neg hle, List.pairwise_cons]
      refine ⟨?_, ih hys⟩
      intro w hw
      rcases (mem_insertSorted le x w ys).mp hw with hwx | hwys
      · subst hwx
        intro hwdir
        cases hydir : y.is_dir with
        | true => rfl
        | false => exact absurd (hA w y hwdir hydir) (by simp [hle2])
      · exact hy w hwys

/-- The comparison sort with a directories-first comparator produces a list in
which no file precedes a directory. -/
theorem pairwise_sortByLe (le : AListFile → AListFile → Bool)
    (hA : ∀ a b, a.is_dir = true → b.is_dir = false → le a b = true)
    (hB : ∀ a b, a.is_dir = false → b.is_dir = true → le a b = false) :
    ∀ l : List AListFile, (sortByLe le l).Pairwise dirsBeforeFiles := by
  intro l
  induction l with
  | nil => simp [sortByLe]
  | cons y ys ih => exact pairwise_insertSorted le hA hB y (sortByLe le ys) ih

/-- A character that does not occur in a string has no last index there. -/
theorem jsLastIndexOf_eq_none (c : Char) :
    ∀ s : Str, c ∉ s → jsLastIndexOf c s = none := by
  intro s
  induction s with
  | nil => intro _; rfl
  | cons x xs ih =>
    intro h
    have hx : x ≠ c := fun hxc => h (by simp [hxc])
    have hxs : c ∉ xs := fun hm => h (List.mem_cons_of_mem x hm)
    simp [jsLastIndexOf, ih hxs, hx]

/-- When the suffix after a separator contains no further separator, the last
index of the separator is the length of the prefix. -/
theorem jsLastIndexOf_append (c : Char) (post : Str) (hpost : c ∉ post) :
    ∀ pre : Str, jsLastIndexOf c (pre ++ c :: post) = some pre.length := by
  intro pre
  induction pre with
  | nil => simp [jsLastIndexOf, jsLastIndexOf_eq_none c post hpost]
  | cons x xs ih => simp [jsLastIndexOf, ih]

/-- Taking the length of the left part of an append returns the left part. -/
theorem take_length_append {α : Type} (l1 l2 : List α) :
    (l1 ++ l2).take l1.length = l1 := by
  induction l1 with
  | nil => rfl
  | cons x xs ih => simp [ih]

/-- Dropping one past the left part of an append around a separator returns
the right part. -/
theorem drop_length_succ_append {α : Type} (l1 l2 : List α) (c : α) :
    (l1 ++ c :: l2).drop (l1.length + 1) = l2 := by
  induction l1 with
  | nil => rfl
  | cons x xs ih => simp [ih]

/-- Folding any login sequence over a bounded history keeps it bounded. -/
theorem foldl_updateLoginHistory_le (logins : List ServerConfig) :
    ∀ hist : List ServerConfig, hist.length ≤ 5 →
      (logins.foldl updateLoginHistory hist).length ≤ 5 := by
  induction logins with
  | nil => intro hist h; simpa using h
  | cons c cs ih =>
    intro hist _
    have hstep : (updateLoginHistory hist c).length ≤ 5 := by
      unfold updateLoginHistory
      cases hist.findIdx? (historyMatches c) with
      | none => simp [List.length_take]
      | some i => simp [List.length_take]
    simpa using ih (updateLoginHistory hist c) hstep

/-- Claim C1: the persisted connection history holds at most 5 entries in
most-recently-used order. A login whose `(url, username)` pair already occurs
replaces that entry in place (same position, same length, no duplicate); a
login with a fresh pair is prepended; and when the history already holds 5
distinct entries a fresh login evicts the oldest (last) entry. Any sequence of
successful logins starting from an empty history keeps the length at most 5. -/
theorem login_history_bounded_mru (hist : List ServerConfig) (nc : ServerConfig) :
    (updateLoginHistory hist nc).length ≤ 5
    ∧ (∀ i, hist.findIdx? (historyMatches nc) = some i → hist.length ≤ 5 →
        updateLoginHistory hist nc = hist.set i nc)
    ∧ (hist.findIdx? (historyMatches nc) = none →
        updateLoginHistory hist nc = (nc :: hist).take 5)
    ∧ (hist.findIdx? (historyMatches nc) = none → hist.length = 5 →
        updateLoginHistory hist nc = nc :: hist.dropLast)
    ∧ (∀ logins : List ServerConfig,
        (logins.foldl updateLoginHistory []).length ≤ 5) := by
  refine ⟨?_, ?_, ?_, ?_, ?_⟩
  · unfold updateLoginHistory
    cases hist.findIdx? (historyMatches nc) with
    | none => simp [List.length_take]
    | some i => simp [List.length_take]
  · intro i hi hlen
    unfold updateLoginHistory
    rw [hi]
    exact List.take_of_length_le (by rw [List.length_set]; omega)
  · intro h
    unfold updateLoginHistory
    rw [h]
  · intro h hlen
    unfold updateLoginHistory
    rw [h, List.take_succ_cons, List.dropLast_eq_take, hlen]
  · intro logins
    exact foldl_updateLoginHistory_le logins [] (by simp)

/-- Witness for C1 at concrete inputs: re-login with the pair of the second
entry replaces it in place, and a sixth distinct login evicts the oldest of
five saved entries. -/
theorem login_history_bounded_mru_witness :
    updateLoginHistory
        [⟨"http://a:1".toList, "u".toList, "t1".toList, "A".toList⟩,
         ⟨"http://b:1".toList, "u".toList, "t2".toList, "B".toList⟩]
        ⟨"http://b:1".toList, "u".toList, "t9".toList, "B2".toList⟩
      = [⟨"http://a:1".toList, "u".toList, "t1".toList, "A".toList⟩,
         ⟨"http://b:1".toList, "u".toList, "t9".toList, "B2".toList⟩]
    ∧ updateLoginHistory
        [⟨"h1".toList, "u".toList, [], []⟩, ⟨"h2".toList, "u".toList, [], []⟩,
         ⟨"h3".toList, "u".toList, [], []⟩, ⟨"h4".toList, "u".toList, [], []⟩,
         ⟨"h5".toList, "u".toList, [], []⟩]
        ⟨"h6".toList, "u".toList, [], []⟩
      = [⟨"h6".toList, "u".toList, [], []⟩, ⟨"h1".toList, "u".toList, [], []⟩,
         ⟨"h2".toList, "u".toList, [], []⟩, ⟨"h3".toList, "u".toList, [], []⟩,
         ⟨"h4".toList, "u".toList, [], []⟩] := by
  constructor
  · have h := (login_history_bounded_mru
        [⟨"http://a:1".toList, "u".toList, "t1".toList, "A".toList⟩,
         ⟨"http://b:1".toList, "u".toList, "t2".toList, "B".toList⟩]
        ⟨"http://b:1".toList, "u".toList, "t9".toList, "B2".toList⟩).2.1
        1 (by decide) (by decide)
    rw [h]
    decide
  · have h := (login_history_bounded_mru
        [⟨"h1".toList, "u".toList, [], []⟩, ⟨"h2".toList, "u".toList, [], []⟩,
         ⟨"h3".toList, "u".toList, [], []⟩, ⟨"h4".toList, "u".toList, [], []⟩,
         ⟨"h5".toList, "u".toList, [], []⟩]
        ⟨"h6".toList, "u".toList, [], []⟩).2.2.2.1 (by decide) (by decide)
    rw [h]
    decide

/-- Claim C2: whenever some selected name resolves to a directory entry, the
derived `hasFolderSelected` flag is set, the batch download and batch
copy-link handlers issue no `getFileDetail` request at all (the guard runs
before any per-item request), both buttons are disabled, and the batch delete
button stays enabled. -/
theorem batch_ops_folder_guard (files : List AListFile) (selected : List Str)
    (path nm : Str) (f : AListFile)
    (hmem : nm ∈ selected)
    (hfind : files.find? (fun g => g.name == nm) = some f)
    (hdir : f.is_dir = true) :
    hasFolderSelected files selected = true
    ∧ batchDownloadRequests files selected path = []
    ∧ batchCopyLinkRequests files selected path = []
    ∧ batchDownloadDisabled false files selected = true
    ∧ batchCopyDisabled false files selected = true
    ∧ batchDeleteDisabled false selected = false := by
  have hfs : hasFolderSelected files selected = true := by
    unfold hasFolderSelected
    rw [List.any_eq_true]
    refine ⟨nm, hmem, ?_⟩
    simp only [hfind]
    exact hdir
  have hne : selected.isEmpty = false := by
    cases selected with
    | nil => exact absurd hmem (List.not_mem_nil nm)
    | cons a as => rfl
  exact ⟨hfs,
    by simp [batchDownloadRequests, hfs],
    by simp [batchCopyLinkRequests, hfs],
    by simp [batchDownloadDisabled, hfs],
    by simp [batchCopyDisabled, hfs],
    by simp [batchDeleteDisabled, hne]⟩

/-- Witness for C2: selecting one file and one directory from a two-entry
listing disables download and copy-link, issues no requests, and leaves
delete enabled. -/
theorem batch_ops_folder_guard_witness :
    hasFolderSelected
        [⟨"a.txt".toList, 1, false, [], [], []⟩,
         ⟨"docs".toList, 0, true, [], [], []⟩]
        ["a.txt".toList, "docs".toList] = true
    ∧ batchDownloadRequests
        [⟨"a.txt".toList, 1, false, [], [], []⟩,
         ⟨"docs".toList, 0, true, [], [], []⟩]
        ["a.txt".toList, "docs".toList] ("/".toList) = []
    ∧ batchCopyLinkRequests
        [⟨"a.txt".toList, 1, false, [], [], []⟩,
         ⟨"docs".toList, 0, true, [], [], []⟩]
        ["a.txt".toList, "docs".toList] ("/".toList) = []
    ∧ batchDownloadDisabled false
        [⟨"a.txt".toList, 1, false, [], [], []⟩,
         ⟨"docs".toList, 0, true, [], [], []⟩]
        ["a.txt".toList, "docs".toList] = true
    ∧ batchCopyDisabled false
        [⟨"a.txt".toList, 1, false, [], [], []⟩,
         ⟨"docs".toList, 0, true, [], [], []⟩]
        ["a.txt".toList, "docs".toList] = true
    ∧ batchDeleteDisabled false ["a.txt".toList, "docs".toList] = false :=
  batch_ops_folder_guard
    [⟨"a.txt".toList, 1, false, [], [], []⟩,
     ⟨"docs".toList, 0, true, [], [], []⟩]
    ["a.txt".toList, "docs".toList] ("/".toList) ("docs".toList)
    ⟨"docs".toList, 0, true, [], [], []⟩
    (by decide) (by decide) (by decide)

/-- Claim C3: thumbnails from `listFiles` and `raw_url`/`thumb` from
`getFileDetail` are normalized by `fixProtocol`: with an https base URL a
returned `http://`-URL is rewritten to `https://`; a server-relative URL
starting with `/` is resolved against the base URL; and any other URL is
returned unchanged. -/
theorem fixProtocol_normalization (cfgUrl rest u : Str) (f : RawFile)
    (d : RawDetail) :
    (serviceIsHttps cfgUrl = true →
      (normalizeFile cfgUrl { f with thumb := some ("http://".toList ++ rest) }).thumb
        = "https://".toList ++ rest)
    ∧ (normalizeFile cfgUrl { f with thumb := some ('/' :: rest) }).thumb
        = cleanUrl cfgUrl ++ '/' :: rest
    ∧ (serviceIsHttps cfgUrl = true →
      (normalizeDetail cfgUrl { d with raw_url := some ("http://".toList ++ rest) }).raw_url
        = "https://".toList ++ rest)
    ∧ (normalizeDetail cfgUrl { d with raw_url := some ('/' :: rest) }).raw_url
        = cleanUrl cfgUrl ++ '/' :: rest
    ∧ (u ≠ [] → u.head? ≠ some '/' →
        (serviceIsHttps cfgUrl = false ∨ startsWithL u ("http://".toList) = false) →
        fixProtocol cfgUrl (some u) = u) := by
  have hpromote : serviceIsHttps cfgUrl = true →
      fixProtocol cfgUrl (some ("http://".toList ++ rest))
        = "https://".toList ++ rest := by
    intro hS
    have e1 : "http://".toList ++ rest
        = 'h' :: 't' :: 't' :: 'p' :: ':' :: '/' :: '/' :: rest := rfl
    simp [fixProtocol, e1, hS, startsWithL]
  have hrel : fixProtocol cfgUrl (some ('/' :: rest)) = cleanUrl cfgUrl ++ '/' :: rest := by
    simp [fixProtocol, startsWithL]
  refine ⟨?_, ?_, ?_, ?_, ?_⟩
  · intro hS
    simp only [normalizeFile]
    exact hpromote hS
  · simp only [normalizeFile]
    exact hrel
  · intro hS
    simp only [normalizeDetail]
    exact hpromote hS
  · simp only [normalizeDetail]
    exact hrel
  · intro hne hhead hdisj
    cases u with
    | nil => exact absurd rfl hne
    | cons c cs =>
      have hc : (c == '/') = false := by
        cases hcc : c == '/' with
        | true =>
          have hceq : c = '/' := by simpa using hcc
          exact absurd (by simp [hceq] : (c :: cs).head? = some '/') hhead
        | false => rfl
      have h1 : ¬((c :: cs).isEmpty = true) := by simp
      have h2 : ¬((serviceIsHttps cfgUrl
          && startsWithL (c :: cs) ("http://".toList)) = true) := by
        rcases hdisj with h | h
        · simp [h]
        · have hlit : startsWithL (c :: cs) ['h', 't', 't', 'p', ':', '/', '/'] = false := h
          simp [hlit]
      have h3 : ¬(startsWithL (c :: cs) ("/".toList) = true) := by
        simp only [show "/".toList = ['/'] from rfl, startsWithL, hc,
          Bool.false_and]
        exact Bool.false_ne_true
      simp only [fixProtocol]
      rw [if_neg h1, if_neg h2, if_neg h3]

/-- Witness for C3: against the base `https://host`, the thumbnail
`http://host/x.jpg` is promoted to https, the relative `raw_url`
`/thumb/x.jpg` resolves against the base, and an absolute URL with a foreign
scheme passes through unchanged. -/
theorem fixProtocol_normalization_witness :
    (normalizeFile ("https://host".toList)
        ⟨[], 0, false, [], [], some ("http://host/x.jpg".toList)⟩).thumb
      = "https://host/x.jpg".toList
    ∧ (normalizeDetail ("https://host".toList)
        ⟨some ("/thumb/x.jpg".toList), none⟩).raw_url
      = "https://host/thumb/x.jpg".toList
    ∧ fixProtocol ("https://host".toList) (some ("ftp://z".toList))
      = "ftp://z".toList := by
  refine ⟨?_, ?_, ?_⟩
  · exact (fixProtocol_normalization ("https://host".toList)
      ("host/x.jpg".toList) [] ⟨[], 0, false, [], [], none⟩
      ⟨none, none⟩).1 (by decide)
  · exact (fixProtocol_normalization ("https://host".toList)
      ("thumb/x.jpg".toList) [] ⟨[], 0, false, [], [], none⟩
      ⟨none, none⟩).2.2.2.1
  · exact (fixProtocol_normalization ("https://host".toList) []
      ("ftp://z".toList) ⟨[], 0, false, [], [], none⟩
      ⟨none, none⟩).2.2.2.2 (by decide) (by decide) (Or.inr (by decide))

/-- Claim C10: `fixProtocol` is total on missing input: an `undefined` or
empty URL yields the empty string, so a `listFiles` entry without a
thumbnail gets `thumb = ''` and a `getFileDetail` result without a
`raw_url`/`thumb` gets `''` instead of an error. -/
theorem fixProtocol_total_on_missing (cfgUrl : Str) (f : RawFile) (d : RawDetail) :
    fixProtocol cfgUrl none = []
    ∧ fixProtocol cfgUrl (some []) = []
    ∧ (normalizeFile cfgUrl { f with thumb := none }).thumb = []
    ∧ listFilesContent cfgUrl [{ f with thumb := none }]
        = [normalizeFile cfgUrl { f with thumb := none }]
    ∧ (normalizeDetail cfgUrl { d with raw_url := none }).raw_url = []
    ∧ (normalizeDetail cfgUrl { d with thumb := none }).thumb = [] :=
  ⟨rfl, rfl, rfl, rfl, rfl, rfl⟩

/-- Claim C5: `login` returns a token exactly when the HTTP response is OK and
the application-level code equals 200; in that case the returned token is the
body's token, and otherwise an error is thrown (for a non-OK HTTP status as
well as for a non-200 application code). -/
theorem login_token_iff (httpOk : Bool) (code : Int) (message token : Str) :
    (login httpOk code message token).isOk = (httpOk && code == 200)
    ∧ login true 200 message token = Except.ok token := by
  constructor
  · cases httpOk with
    | false => rfl
    | true =>
      by_cases h : code = 200
      · subst h
        rfl
      · have hbeq : (code == 200) = false := by
          simpa using h
        simp [login, h, hbeq, Except.isOk, Except.toBool]
  · simp [login]

/-- Claim C9: `deleteFile` sends a remove body whose `dir` is the part of the
path before the last slash (replaced by `/` when that part is empty or the
path has no slash) and whose `names` is the singleton list of the part after
the last slash (the whole path when it has no slash). -/
theorem deleteFile_body_split :
    (∀ pre post : Str, '/' ∉ post →
      deleteFileBody (pre ++ '/' :: post)
        = ((if pre.isEmpty then "/".toList else pre), [post]))
    ∧ (∀ p : Str, '/' ∉ p → deleteFileBody p = ("/".toList, [p])) := by
  constructor
  · intro pre post hpost
    unfold deleteFileBody
    rw [jsLastIndexOf_append '/' post hpost pre]
    simp only [take_length_append pre ('/' :: post),
      drop_length_succ_append pre post '/']
  · intro p hp
    unfold deleteFileBody
    rw [jsLastIndexOf_eq_none '/' p hp]

/-- Witness for C9: a nested path splits into parent dir and leaf, a root-level
path gets dir `/`, and a slash-free path is passed whole with dir `/`. -/
theorem deleteFile_body_split_witness :
    deleteFileBody ("/movies/film.mp4".toList)
      = ("/movies".toList, ["film.mp4".toList])
    ∧ deleteFileBody ("/a.txt".toList) = ("/".toList, ["a.txt".toList])
    ∧ deleteFileBody ("notes.md".toList) = ("/".toList, ["notes.md".toList]) := by
  refine ⟨?_, ?_, ?_⟩
  · have h := deleteFile_body_split.1 ("/movies".toList) ("film.mp4".toList)
      (by decide)
    rw [show "/movies".toList ++ '/' :: "film.mp4".toList
        = "/movies/film.mp4".toList from rfl] at h
    rw [h]
    decide
  · have h := deleteFile_body_split.1 [] ("a.txt".toList) (by decide)
    rw [show ([] : Str) ++ '/' :: "a.txt".toList = "/a.txt".toList from rfl] at h
    rw [h]
    decide
  · exact deleteFile_body_split.2 ("notes.md".toList) (by decide)

/-- Claim C6: an entry appears in the derived view exactly when it is a raw
entry whose name contains the search text case-insensitively and which is a
directory or has an extension passing the active type filter; directories
bypass the type filter but not the search, and nothing filtered out ever
appears. -/
theorem derived_view_membership (ncmp : Str → Str → Int) (parseTime : Str → Int)
    (files : List AListFile) (searchQuery : Str) (filterType : FilterType)
    (customExt : Str) (sortKey : SortKey) (sortOrder : SortOrder)
    (foldersFirst : Bool) (e : AListFile) :
    e ∈ sortedAndFilteredFiles ncmp parseTime files searchQuery filterType
        customExt sortKey sortOrder foldersFirst
    ↔ e ∈ files ∧ matchesSearch e.name searchQuery = true
        ∧ (e.is_dir = true
            ∨ typeFilterPass filterType customExt (extOf e.name) = true) := by
  have hpred : ∀ x : AListFile,
      filterPred searchQuery filterType customExt x = true
      ↔ matchesSearch x.name searchQuery = true
        ∧ (x.is_dir = true
            ∨ typeFilterPass filterType customExt (extOf x.name) = true) := by
    intro x
    unfold filterPred
    cases hms : matchesSearch x.name searchQuery with
    | false => simp [hms]
    | true =>
      cases hd : x.is_dir with
      | false => simp [hms, hd]
      | true => simp [hms, hd]
  unfold sortedAndFilteredFiles
  rw [mem_sortByLe, List.mem_filter, hpred e]

/-- Claim C7: with `foldersFirst` enabled, the derived view never places a
file before a directory, for every entry list, search text, type filter,
sort key and sort order (and for every host comparator and date parser). -/
theorem folders_first_order (ncmp : Str → Str → Int) (parseTime : Str → Int)
    (files : List AListFile) (searchQuery : Str) (filterType : FilterType)
    (customExt : Str) (sortKey : SortKey) (sortOrder : SortOrder) :
    (sortedAndFilteredFiles ncmp parseTime files searchQuery filterType
        customExt sortKey sortOrder true).Pairwise dirsBeforeFiles := by
  unfold sortedAndFilteredFiles
  apply pairwise_sortByLe
  · intro a b ha hb
    simp [jsComparator, ha, hb]
  · intro a b ha hb
    simp [jsComparator, ha, hb]

/-- All fields other than the selection flags pass through the path-change
effect unchanged. -/
theorem clearSelection_fields (old : Str) (t : BrowserState) :
    (clearSelectionOnPathChange old t).path = t.path
    ∧ (clearSelectionOnPathChange old t).searchQuery = t.searchQuery
    ∧ (clearSelectionOnPathChange old t).filterType = t.filterType
    ∧ (clearSelectionOnPathChange old t).customExt = t.customExt
    ∧ (clearSelectionOnPathChange old t).sortKey = t.sortKey
    ∧ (clearSelectionOnPathChange old t).sortOrder = t.sortOrder
    ∧ (clearSelectionOnPathChange old t).foldersFirst = t.foldersFirst := by
  unfold clearSelectionOnPathChange
  by_cases h : (t.path == old) = true
  · simp [h]
  · simp [h]

/-- The path-change effect clears the selection when the path differs. -/
theorem clearSelection_clears (old : Str) (t : BrowserState) (h : t.path ≠ old) :
    (clearSelectionOnPathChange old t).isSelectionMode = false
    ∧ (clearSelectionOnPathChange old t).selectedItemNames = [] := by
  unfold clearSelectionOnPathChange
  rw [if_neg (by simpa using h)]
  exact ⟨rfl, rfl⟩

/-- Counterexample to claim C8 as stated: popping to the parent directory via
`goBack` (the back control and the edge swipe both call it) does not reset the
search text; from path `/a/b` with search text `doc`, the search text after
`goBack` is still `doc`, not the default empty string. -/
theorem goBack_keeps_search_counterexample :
    (goBack ⟨"/a/b".toList, "doc".toList, FilterType.video, [], true,
        ["f".toList], SortKey.name, SortOrder.asc, true⟩).searchQuery
      = "doc".toList
    ∧ "doc".toList ≠ ([] : Str) := by
  constructor
  · decide
  · decide

/-- Claim C8 as amended: entering a directory or navigating via breadcrumb
(`handleNavigate`) resets the search text and the type filter to their
defaults; popping one segment to the parent (`goBack`, used by the back
control and the edge swipe) resets only the type filter and preserves the
search text, and is a no-op at the root `/`; every navigation that changes
the path clears selection mode and the selection set; and sort preferences
are preserved throughout. -/
theorem navigation_reset_effects (s : BrowserState) (newPath : Str) :
    (handleNavigate s newPath).searchQuery = []
    ∧ (handleNavigate s newPath).filterType = FilterType.all
    ∧ (handleNavigate s newPath).path = newPath
    ∧ (handleNavigate s newPath).sortKey = s.sortKey
    ∧ (handleNavigate s newPath).sortOrder = s.sortOrder
    ∧ (handleNavigate s newPath).foldersFirst = s.foldersFirst
    ∧ (newPath ≠ s.path →
        (handleNavigate s newPath).isSelectionMode = false
        ∧ (handleNavigate s newPath).selectedItemNames = [])
    ∧ goBack { s with path := "/".toList } = { s with path := "/".toList }
    ∧ (s.path ≠ "/".toList →
        (goBack s).searchQuery = s.searchQuery
        ∧ (goBack s).filterType = FilterType.all
        ∧ (goBack s).path = parentPath s.path
        ∧ (goBack s).sortKey = s.sortKey
        ∧ (goBack s).sortOrder = s.sortOrder
        ∧ (goBack s).foldersFirst = s.foldersFirst)
    ∧ (s.path ≠ "/".toList → parentPath s.path ≠ s.path →
        (goBack s).isSelectionMode = false
        ∧ (goBack s).selectedItemNames = []) := by
  have hnav := clearSelection_fields s.path
    { s with path := newPath, searchQuery := [], filterType := FilterType.all }
  refine ⟨hnav.2.1, hnav.2.2.1, hnav.1, hnav.2.2.2.2.1, hnav.2.2.2.2.2.1,
    hnav.2.2.2.2.2.2, ?_, ?_, ?_, ?_⟩
  · intro h
    exact clearSelection_clears s.path
      { s with path := newPath, searchQuery := [], filterType := FilterType.all }
      (by simpa using h)
  · unfold goBack
    rw [if_pos (by simp)]
  · intro hroot
    unfold goBack
    rw [if_neg (by simpa using hroot)]
    have hgb := clearSelection_fields s.path
      { s with path := parentPath s.path, filterType := FilterType.all }
    exact ⟨hgb.2.1, hgb.2.2.1, hgb.1, hgb.2.2.2.2.1, hgb.2.2.2.2.2.1,
      hgb.2.2.2.2.2.2⟩
  · intro hroot hpar
    unfold goBack
    rw [if_neg (by simpa using hroot)]
    exact clearSelection_clears s.path
      { s with path := parentPath s.path, filterType := FilterType.all }
      (by simpa using hpar)

/-- Witness for the amended C8 at a concrete state: navigating from `/a/b`
into `/a/b/c` clears the selection, and `goBack` from `/a/b` keeps the search
text `x`, resets the filter and clears the selection. -/
theorem navigation_reset_effects_witness :
    (handleNavigate ⟨"/a/b".toList, "x".toList, FilterType.video, [], true,
        ["f".toList], SortKey.size, SortOrder.desc, false⟩
        ("/a/b/c".toList)).isSelectionMode = false
    ∧ (goBack ⟨"/a/b".toList, "x".toList, FilterType.video, [], true,
        ["f".toList], SortKey.size, SortOrder.desc, false⟩).searchQuery
      = "x".toList
    ∧ (goBack ⟨"/a/b".toList, "x".toList, FilterType.video, [], true,
        ["f".toList], SortKey.size, SortOrder.desc, false⟩).filterType
      = FilterType.all
    ∧ (goBack ⟨"/a/b".toList, "x".toList, FilterType.video, [], true,
        ["f".toList], SortKey.size, SortOrder.desc, false⟩).selectedItemNames
      = [] := by
  refine ⟨?_, ?_, ?_, ?_⟩
  · exact ((navigation_reset_effects
      ⟨"/a/b".toList, "x".toList, FilterType.video, [], true, ["f".toList],
        SortKey.size, SortOrder.desc, false⟩
      ("/a/b/c".toList)).2.2.2.2.2.2.1 (by decide)).1
  · exact ((navigation_reset_effects
      ⟨"/a/b".toList, "x".toList, FilterType.video, [], true, ["f".toList],
        SortKey.size, SortOrder.desc, false⟩
      ("/a/b/c".toList)).2.2.2.2.2.2.2.2.1 (by decide)).1
  · exact ((navigation_reset_effects
      ⟨"/a/b".toList, "x".toList, FilterType.video, [], true, ["f".toList],
        SortKey.size, SortOrder.desc, false⟩
      ("/a/b/c".toList)).2.2.2.2.2.2.2.2.1 (by decide)).2.1
  · exact ((navigation_reset_effects
      ⟨"/a/b".toList, "x".toList, FilterType.video, [], true, ["f".toList],
        SortKey.size, SortOrder.desc, false⟩
      ("/a/b/c".toList)).2.2.2.2.2.2.2.2.2 (by decide) (by decide)).2

/-- Raising the 0.8-power to the fifth power yields the fourth power. -/
theorem rpow08_pow5 (x : ℝ) (hx : 0 ≤ x) :
    (x ^ (0.8 : ℝ)) ^ (5 : ℕ) = x ^ (4 : ℕ) := by
  rw [← Real.rpow_natCast (x ^ (0.8 : ℝ)) 5, ← Real.rpow_mul hx]
  rw [show ((0.8 : ℝ) * ((5 : ℕ) : ℝ)) = ((4 : ℕ) : ℝ) by norm_num,
    Real.rpow_natCast]

/-- The damped distance of a 150px drag stays below 100. -/
theorem rawPullDistance_150_lt : rawPullDistance 150 < 100 := by
  unfold rawPullDistance DAMPING_COEFFICIENT
  have h1 : (150 : ℝ) ^ (0.8 : ℝ) < 1000 / 13 := by
    refine lt_of_pow_lt_pow_left₀ 5 (by norm_num) ?_
    rw [rpow08_pow5 150 (by norm_num)]
    norm_num
  linarith

/-- The damped distance of a 250px drag reaches 100. -/
theorem rawPullDistance_250_ge : 100 ≤ rawPullDistance 250 := by
  unfold rawPullDistance DAMPING_COEFFICIENT
  have h5 : (1000 / 13 : ℝ) ^ (5 : ℕ) ≤ ((250 : ℝ) ^ (0.8 : ℝ)) ^ (5 : ℕ) := by
    rw [rpow08_pow5 250 (by norm_num)]
    norm_num
  have h1 : (1000 / 13 : ℝ) ≤ (250 : ℝ) ^ (0.8 : ℝ) :=
    le_of_pow_le_pow_left₀ (by norm_num) (Real.rpow_nonneg (by norm_num) _) h5
  linarith

/-- A mostly-vertical 150px drag from rest produces the damped distance. -/
theorem handleTouchMove_150 :
    handleTouchMove true false false 0 150 0
      = min (rawPullDistance 150) PULL_LIMIT := by
  unfold handleTouchMove
  rw [if_neg (by simp), if_pos ⟨by norm_num, by rw [abs_zero]; norm_num⟩]

/-- A mostly-vertical 250px drag from rest produces the damped distance. -/
theorem handleTouchMove_250 :
    handleTouchMove true false false 0 250 0
      = min (rawPullDistance 250) PULL_LIMIT := by
  unfold handleTouchMove
  rw [if_neg (by simp), if_pos ⟨by norm_num, by rw [abs_zero]; norm_num⟩]

/-- The pull distance left by a 150px drag is below the trigger zone. -/
theorem pullDistance_150_lt_trigger :
    handleTouchMove true false false 0 150 0 < PULL_TRIGGER_ZONE := by
  rw [handleTouchMove_150]
  calc min (rawPullDistance 150) PULL_LIMIT
      ≤ rawPullDistance 150 := min_le_left _ _
    _ < PULL_TRIGGER_ZONE := by
        unfold PULL_TRIGGER_ZONE
        exact rawPullDistance_150_lt

/-- Counterexample to claim C4 as stated: a single predominantly-vertical
downward drag of 150px raw displacement from the top yields a damped pull
distance below the 100px trigger zone (about 71.6px), so releasing it does
not commit a forced refresh. -/
theorem pull_150px_no_refresh :
    handleTouchMove true false false 0 150 0 < PULL_TRIGGER_ZONE
    ∧ (handleTouchEnd false 200 0 150 300
        (handleTouchMove true false false 0 150 0) false).1
      ≠ TouchEndOutcome.forcedRefresh := by
  refine ⟨pullDistance_150_lt_trigger, ?_⟩
  unfold handleTouchEnd
  rw [if_neg (fun h => absurd h.2.1 (by norm_num)),
    if_neg (fun h => absurd h.1 (not_le.mpr pullDistance_150_lt_trigger))]
  decide

/-- Claim C4 as amended: the displayed pull distance follows the damping curve
`min((Δy)^0.8 · 0.65 · 2, 110)`, so a 150px predominantly-vertical drag
reaches only about 71.6px and releasing it does not refresh (the raw drag must
reach about 228px; a 250px drag does commit a forced refresh on release); a
release with the pull distance at 60px does not refresh and resets the
distance to 0; and the distance never exceeds the hard limit. -/
theorem pull_to_refresh_behavior :
    (handleTouchEnd false 200 0 250 300
        (handleTouchMove true false false 0 250 0) false).1
      = TouchEndOutcome.forcedRefresh
    ∧ handleTouchMove true false false 0 150 0 = rawPullDistance 150
    ∧ handleTouchEnd false 200 0 150 300
        (handleTouchMove true false false 0 150 0) false
      = (TouchEndOutcome.idle, 0)
    ∧ handleTouchEnd false 200 5 80 300 60 false = (TouchEndOutcome.idle, 0)
    ∧ ∀ dy dx : ℝ, handleTouchMove true false false 0 dy dx ≤ PULL_LIMIT := by
  refine ⟨?_, ?_, ?_, ?_, ?_⟩
  · rw [handleTouchMove_250]
    unfold handleTouchEnd
    rw [if_neg (fun h => absurd h.2.1 (by norm_num)), if_pos ?_]
    refine ⟨?_, rfl⟩
    unfold PULL_TRIGGER_ZONE
    exact le_min rawPullDistance_250_ge (by unfold PULL_LIMIT; norm_num)
  · rw [handleTouchMove_150]
    refine min_eq_left ?_
    have h := rawPullDistance_150_lt
    unfold PULL_LIMIT
    linarith
  · unfold handleTouchEnd
    rw [if_neg (fun h => absurd h.2.1 (by norm_num)),
      if_neg (fun h => absurd h.1 (not_le.mpr pullDistance_150_lt_trigger))]
  · unfold handleTouchEnd
    rw [if_neg (fun h => absurd h.2.1 (by norm_num)),
      if_neg (fun h => absurd h.1 (by unfold PULL_TRIGGER_ZONE; norm_num))]
  · intro dy dx
    unfold handleTouchMove
    rw [if_neg (by simp)]
    by_cases h : (0 : ℝ) < dy ∧ |dx| < dy
    · rw [if_pos h]
      exact min_le_right _ _
    · rw [if_neg h]
      unfold PULL_LIMIT
      norm_num
